import Mathlib

/-!
Shallow embedding of `scripts/parse_results.py`: the three product-block
extractors (SSENSE, MR PORTER, 2ndStreet), the backward bracket matcher,
the per-record normalizer and the aggregation-pipeline stages (filter,
sort, image resolution) that the verified claims are about.

Conventions of the embedding:
* a Python `str` is embedded as `List Char` (one element per code point,
  as in Python); record fields hold `String` (a wrapper of `List Char`);
* Python operations that can raise (`int('')`, float division by zero)
  are embedded with `Except String`, the string naming the Python
  exception class;
* Python `float` arithmetic is modelled as exact rational arithmetic and
  Python `round` as round-half-to-even (`pyRound`), Python's rounding
  mode;
* position-jumping loops over a string are embedded with an explicit
  fuel argument equal to the number of remaining characters; the fuel
  bounds the iterations of the corresponding Python loop (each
  iteration consumes at least one character), so every definition is a
  structural recursion that the kernel can evaluate.
-/

/-- Python whitespace characters stripped by `str.strip()` (ASCII range). -/
def isPySpace (c : Char) : Bool :=
  c = ' ' || c = '\t' || c = '\n' || c = '\r' || c = '\x0b' || c = '\x0c'

/-- Python `s.strip()`: drop whitespace from both ends. -/
def pyStrip (s : List Char) : List Char :=
  ((s.dropWhile isPySpace).reverse.dropWhile isPySpace).reverse

/-- Python `s.strip(c)` for a single strip character `c`. -/
def stripChar (c : Char) (s : List Char) : List Char :=
  ((s.dropWhile (fun x => x = c)).reverse.dropWhile (fun x => x = c)).reverse

/-- Python `s.upper()` (ASCII letters). -/
def pyUpper (s : List Char) : List Char := s.map Char.toUpper

/-- Python `s.lower()` (ASCII letters). -/
def pyLower (s : List Char) : List Char := s.map Char.toLower

/-- Python `s.split(sep)` for a one-character separator `sep`. -/
def splitOnChar (c : Char) : List Char → List (List Char)
  | [] => [[]]
  | x :: xs =>
    match splitOnChar c xs with
    | [] => [[]]
    | h :: t => if x = c then [] :: h :: t else (x :: h) :: t

/-- Substring test, Python `pat in s`. -/
def hasSub (pat : List Char) : List Char → Bool
  | [] => pat.isEmpty
  | c :: cs => pat.isPrefixOf (c :: cs) || hasSub pat cs

/-- The suffix that follows the first occurrence of `pat`, if any. -/
def afterFirstSub (pat : List Char) : List Char → Option (List Char)
  | [] => if pat.isEmpty then some [] else none
  | c :: cs =>
    if pat.isPrefixOf (c :: cs) then some ((c :: cs).drop pat.length)
    else afterFirstSub pat cs

/-- The suffix that follows the first occurrence of character `c`, if any. -/
def afterFirstChar (c : Char) : List Char → Option (List Char)
  | [] => none
  | x :: xs => if x = c then some xs else afterFirstChar c xs

/-- `re.search` driver: try a matcher at position 0, 1, ... and return the
first hit (Python regex scanning is leftmost-first). -/
def searchFirst {α : Type} (f : List Char → Option α) : List Char → Option α
  | [] => f []
  | c :: cs =>
    match f (c :: cs) with
    | some a => some a
    | none => searchFirst f cs

/-- Numeric value of a digit string (the argument of Python `int`,
guaranteed nonempty by the callers that use it). -/
def digitsVal (cs : List Char) : Nat :=
  cs.foldl (fun a c => a * 10 + (c.toNat - 48)) 0

/-- Body of a price: what `[0-9,]+` matches (nonempty digits and commas). -/
def isPriceBody (cs : List Char) : Bool :=
  !cs.isEmpty && cs.all (fun c => c.isDigit || c = ',')

/-- Python `s.replace(pat, rep)` for nonempty `pat` (fuelled scan). -/
def replaceSubAux (pat rep : List Char) : Nat → List Char → List Char
  | 0, s => s
  | _ + 1, [] => []
  | fuel + 1, c :: cs =>
    if pat.isPrefixOf (c :: cs) then rep ++ replaceSubAux pat rep fuel (cs.drop (pat.length - 1))
    else c :: replaceSubAux pat rep fuel cs

def replaceSub (pat rep : List Char) (s : List Char) : List Char :=
  replaceSubAux pat rep s.length s

/-- Python `round` on an exact rational: round half to even. -/
def pyRound (q : ℚ) : Int :=
  let f : Int := ⌊q⌋
  let r : ℚ := q - f
  if r < 1/2 then f
  else if (1 : ℚ)/2 < r then f + 1
  else if f % 2 = 0 then f else f + 1

/-- Python `str.title()` applied after `replace('-', ' ')`: uppercase a
letter that follows a non-letter, lowercase the rest (ASCII model of
"cased character"). -/
def pyTitleAux : Bool → List Char → List Char
  | _, [] => []
  | prevAlpha, c :: cs =>
    (if prevAlpha then c.toLower else c.toUpper) :: pyTitleAux c.isAlpha cs

def slugToBrand (seg : List Char) : List Char :=
  pyTitleAux false (seg.map (fun c => if c = '-' then ' ' else c))

/-- The canonical product record built by the extractors and completed by
the normalizer (`parse_file`'s enrichment loop). Optional fields model
dictionary keys that an extractor may leave unset. -/
structure ProductRecord where
  brand : String
  name : String
  sale_price : Int
  original_price : Int
  url : String
  image_url : Option String := none
  discount_pct : Option Int := none
  currency : Option String := none
  retailer_type : Option String := none
  retailer : Option String := none
  category : Option String := none
  deriving Repr, DecidableEq

/-- `CATEGORY_RULES`: ordered keyword table, first match wins. -/
def CATEGORY_RULES : List (String × List String) :=
  [ ("shoes", ["boot", "shoe", "sneaker", "loafer", "sandal", "mule", "slipper",
               "derby", "oxford", "clog", "espadrille", "pump", "flat", "trainer"]),
    ("outerwear", ["coat", "jacket", "blazer", "parka", "vest", "gilet", "cape",
                   "poncho", "anorak", "windbreaker", "bomber", "overcoat", "peacoat"]),
    ("bottoms", ["trouser", "pant", "jean", "short", "skirt", "legging", "jogger", "chino"]),
    ("tops", ["shirt", "t-shirt", "tee", "polo", "sweater", "hoodie", "cardigan",
              "tank", "blouse", "henley", "sweatshirt", "top", "knit", "pullover",
              "jersey", "debardeur", "mock neck"]),
    ("accessories", ["bag", "belt", "wallet", "scarf", "hat", "cap", "glove",
                     "sunglasses", "tie", "ring", "necklace", "bracelet", "earring",
                     "keychain", "pouch", "tote", "backpack", "clutch", "case",
                     "watch", "socks", "sock", "beanie", "umbrella"]) ]

/-- `infer_category`: first keyword that occurs in the lowercased name wins. -/
def infer_category (name : String) : String :=
  let lower := pyLower name.data
  match CATEGORY_RULES.findSome?
      (fun r => if r.2.any (fun kw => hasSub kw.data lower) then some r.1 else none) with
  | some c => c
  | none => "other"

/-! ### SSENSE: `parse_ssense_products_simple` -/

/-- `re.split(r'(?=\[!\[)', text)`: cut before every occurrence of `[![`. -/
def splitBlocksAux : List Char → List Char → List (List Char)
  | [], acc => [acc.reverse]
  | c :: cs, acc =>
    if "[![".data.isPrefixOf (c :: cs) then acc.reverse :: splitBlocksAux cs [c]
    else splitBlocksAux cs (c :: acc)

def splitBlocks (t : List Char) : List (List Char) := splitBlocksAux t []

def ssenseUrlOpen : List Char := "](https://www.ssense.com/".data

def ssenseUrlBase : List Char := "https://www.ssense.com/".data

/-- One-position matcher for `\]\((https://www\.ssense\.com/[^\)]+)\)`:
the literal opener, then a maximal nonempty run of non-`)` characters,
then `)`. Returns the captured URL. -/
def ssenseUrlAt (s : List Char) : Option (List Char) :=
  if ssenseUrlOpen.isPrefixOf s then
    let rest := s.drop ssenseUrlOpen.length
    let region := rest.takeWhile (fun c => c != ')')
    if !region.isEmpty && region.length < rest.length then some (ssenseUrlBase ++ region)
    else none
  else none

/-- `re.search(r'\]\((https://www\.ssense\.com/[^\)]+)\)', block)`. -/
def ssenseUrlSearch (block : List Char) : Option (List Char) :=
  searchFirst ssenseUrlAt block

/-- Does the whole string match `\]\(https://www\.ssense\.com/[^\)]+\)$`? -/
def ssenseTailMatch (s : List Char) : Bool :=
  ssenseUrlOpen.isPrefixOf s &&
    (let r := s.drop ssenseUrlOpen.length
     decide (2 ≤ r.length) && (r.getLast? == some ')') && r.dropLast.all (fun c => c != ')'))

/-- `re.sub(r'\]\(https://www\.ssense\.com/[^\)]+\)$', '', s)`: delete the
matching tail starting at its leftmost possible position. -/
def rmSsenseSufAux : List Char → List Char
  | [] => []
  | c :: cs => if ssenseTailMatch (c :: cs) then [] else c :: rmSsenseSufAux cs

/-- Per-line cleaning: strip, chop trailing backslashes, strip, then drop a
trailing `](ssense url)` suffix and strip again; empty results are
dropped. -/
def ssenseCleanLine (line : List Char) : Option (List Char) :=
  let c1 := pyStrip line
  let c2 := (c1.reverse.dropWhile (fun c => c == '\\')).reverse
  let c3 := pyStrip c2
  if c3.isEmpty then none
  else
    let c4 := pyStrip (rmSsenseSufAux c3)
    if c4.isEmpty then none else some c4

def ssenseCleanLines (block : List Char) : List (List Char) :=
  (splitOnChar '\n' block).filterMap ssenseCleanLine

/-- Drop image-tag lines, section headers and the `SALE ONLY` banner. -/
def ssenseFilterLines (ls : List (List Char)) : List (List Char) :=
  ls.filter (fun l =>
    !("[![".data.isPrefixOf l) && !("#".data.isPrefixOf l) && (pyUpper l != "SALE ONLY".data))

/-- `^\$([0-9,]+)$`: returns the matched group with commas removed. -/
def dollarBody (s : List Char) : Option (List Char) :=
  match s with
  | '$' :: rest => if isPriceBody rest then some (rest.filter (fun c => c != ',')) else none
  | _ => none

/-- Split cleaned lines into price values and free-text lines, in order.
A price line whose group is all commas makes Python `int('')` raise
`ValueError`. -/
def ssenseClassify : List (List Char) → Except String (List Int × List (List Char))
  | [] => .ok ([], [])
  | l :: ls =>
    match dollarBody l with
    | some ds =>
      if ds.isEmpty then .error "ValueError"
      else (ssenseClassify ls).map (fun pt => ((digitsVal ds : Int) :: pt.1, pt.2))
    | none => (ssenseClassify ls).map (fun pt => (pt.1, l :: pt.2))

/-- `re.search(r'/product/([^/]+)/', url)`: first `/product/` segment that
is followed by a nonempty slug and another `/`. -/
def ssenseUrlBrand (url : List Char) : Option (List Char) :=
  searchFirst (fun s =>
    if "/product/".data.isPrefixOf s then
      let r := s.drop 9
      let seg := r.takeWhile (fun c => c != '/')
      if !seg.isEmpty && seg.length < r.length then some seg else none
    else none) url

/-- Record construction for one SSENSE block: first price is the sale
price, second the original; one free-text line means brand==name, in
which case the brand is re-derived from the URL slug. -/
def mkSsenseRecord (prices : List Int) (texts : List (List Char)) (url : List Char) :
    ProductRecord :=
  let brand := texts.getD 0 []
  let name := if 1 < texts.length then texts.getD 1 [] else texts.getD 0 []
  let brand2 :=
    if brand = name then
      match ssenseUrlBrand url with
      | some seg => slugToBrand seg
      | none => brand
    else brand
  { brand := String.mk brand2, name := String.mk name,
    sale_price := prices.getD 0 0, original_price := prices.getD 1 0,
    url := String.mk url }

/-- Body of the per-block loop of `parse_ssense_products_simple`. -/
def parseSsenseBlock (block : List Char) : Except String (List ProductRecord) :=
  if (pyStrip block).isEmpty then .ok []
  else
    match ssenseUrlSearch block with
    | none => .ok []
    | some url =>
      match ssenseClassify (ssenseFilterLines (ssenseCleanLines block)) with
      | .error e => .error e
      | .ok (prices, texts) =>
        if 2 ≤ prices.length ∧ 1 ≤ texts.length then .ok [mkSsenseRecord prices texts url]
        else .ok []

def processSsenseBlocks : List (List Char) → Except String (List ProductRecord)
  | [] => .ok []
  | b :: bs =>
    match parseSsenseBlock b with
    | .error e => .error e
    | .ok ps => (processSsenseBlocks bs).map (fun rest => ps ++ rest)

/-- `parse_ssense_products_simple(text)`. -/
def parse_ssense_products_simple (text : String) : Except String (List ProductRecord) :=
  processSsenseBlocks (splitBlocks text.data)

/-! ### Backward bracket matcher -/

/-- The backward walk of the two bracket-matching parsers
(`depth = 1; pos = end_pos - 1; while pos >= 0 and depth > 0:` increment
on `]`, decrement on `[`, step left). The fuel is `(pos+1).toNat`, the
number of positions left to visit, making the recursion structural. -/
def scanBracketAux (t : List Char) : Nat → Int → Nat → Int × Nat
  | 0, pos, depth => (pos, depth)
  | fuel + 1, pos, depth =>
    if 0 ≤ pos ∧ 0 < depth then
      let c := t.getD pos.toNat ' '
      let d2 := if c = ']' then depth + 1 else if c = '[' then depth - 1 else depth
      scanBracketAux t fuel (pos - 1) d2
    else (pos, depth)

def scanBracket (t : List Char) (pos : Int) (depth : Nat) : Int × Nat :=
  scanBracketAux t (pos + 1).toNat pos depth

/-- Index of the `[` matching the `]` at `endPos`: `some (pos + 1)` when
the counter balances, `none` (the caller skips the candidate block) when
the start of text is reached first. -/
def findLabelStart (t : List Char) (endPos : Nat) : Option Int :=
  let r := scanBracket t ((endPos : Int) - 1) 1
  if r.2 = 0 then some (r.1 + 1) else none

/-! ### Continuation-marker split shared by MR PORTER and 2ndStreet -/

/-- Index of the last `\n` in a list, if any. -/
def lastNewlinePos : List Char → Option Nat
  | [] => none
  | c :: cs =>
    match lastNewlinePos cs with
    | some k => some (k + 1)
    | none => if c = '\n' then some 0 else none

/-- Length of the match of `\\+\s*\n|\\+\s*\\+` anchored at the head of
`s`, with Python's greedy/backtracking semantics:
* alternative 1 consumes the backslash run and the whitespace run up to
  (and including) the last newline in that run, if it holds a newline;
* alternative 2 consumes backslashes, whitespace, backslashes; with no
  backslash after the whitespace it still matches a bare run of two or
  more backslashes (the first `\\+` backtracks by one). -/
def sepMatchLen (s : List Char) : Option Nat :=
  let b := (s.takeWhile (fun c => c == '\\')).length
  if b = 0 then none
  else
    let rest := s.drop b
    let w := (rest.takeWhile isPySpace).length
    match lastNewlinePos (rest.take w) with
    | some k => some (b + k + 1)
    | none =>
      if 0 < w then
        let b2 := ((rest.drop w).takeWhile (fun c => c == '\\')).length
        if 0 < b2 then some (b + w + b2)
        else if 2 ≤ b then some b else none
      else if 2 ≤ b then some b else none

/-- `re.split(r'\\+\s*\n|\\+\s*\\+', content)` (fuelled scan). -/
def splitSepsAux : Nat → List Char → List Char → List (List Char)
  | 0, s, acc => [acc.reverse ++ s]
  | _ + 1, [], acc => [acc.reverse]
  | fuel + 1, c :: cs, acc =>
    match sepMatchLen (c :: cs) with
    | some n => acc.reverse :: splitSepsAux fuel (cs.drop (n - 1)) []
    | none => splitSepsAux fuel cs (c :: acc)

def splitSeps (s : List Char) : List (List Char) := splitSepsAux s.length s []

/-! ### Image-tag handling -/

/-- `re.sub(r'!\[.*?\]\(.*?\)', '', s, flags=re.DOTALL)`: delete every
lazy `![ ... ]( ... )` image tag (fuelled scan; a `![` with no closing
is kept and scanning resumes one character later). -/
def stripImageTagsAux : Nat → List Char → List Char
  | 0, s => s
  | _ + 1, [] => []
  | fuel + 1, '!' :: '[' :: rest =>
    (match afterFirstSub "](".data rest with
     | some afterBr =>
       match afterFirstChar ')' afterBr with
       | some after => stripImageTagsAux fuel after
       | none => '!' :: stripImageTagsAux fuel ('[' :: rest)
     | none => '!' :: stripImageTagsAux fuel ('[' :: rest))
  | fuel + 1, c :: cs => c :: stripImageTagsAux fuel cs

def stripImageTags (s : List Char) : List Char := stripImageTagsAux s.length s

/-- Gap scan for `!\[.*?\]\(BASE[^)]+\)` without DOTALL: the lazy gap
between `![` and the literal `](BASE` may not contain a newline; after a
failed attempt the scan moves one character (Python backtracking) until
a newline or the end stops it. Returns the captured group `BASE[^)]+`. -/
def imgGapScan (lit base : List Char) : List Char → Option (List Char)
  | [] => none
  | c :: cs =>
    match
      (if lit.isPrefixOf (c :: cs) then
        let r := (c :: cs).drop lit.length
        let region := r.takeWhile (fun x => x != ')')
        if !region.isEmpty && region.length < r.length then some (base ++ region) else none
      else none) with
    | some u => some u
    | none => if c = '\n' then none else imgGapScan lit base cs

/-- One-position matcher for `!\[.*?\]\((BASE[^)]+)\)` where `lit` is `](`
followed by `base`. -/
def imgTagAt (lit base : List Char) (s : List Char) : Option (List Char) :=
  match s with
  | '!' :: '[' :: rest => imgGapScan lit base rest
  | _ => none

/-! ### MR PORTER: `parse_mrporter_products` -/

def mrUrlOpen : List Char := "](https://www.mrporter.com/".data

def mrUrlBase : List Char := "https://www.mrporter.com/".data

def mrImgLit : List Char := "](https://www.mrporter.com/variants/images/".data

def mrImgBase : List Char := "https://www.mrporter.com/variants/images/".data

/-- One-position matcher for
`\]\((https://www\.mrporter\.com/[^\)]*?/product/[^\)]+)\)`. The lazy
gap and the greedy tail both live inside the run of non-`)` characters
after the literal opener, so the pattern matches exactly when that run
contains `/product/` followed by at least one more character and is
terminated by `)`; the capture is the whole run. Returns the captured
URL and the total match length. -/
def mrUrlAt (s : List Char) : Option (List Char × Nat) :=
  if mrUrlOpen.isPrefixOf s then
    let rest := s.drop mrUrlOpen.length
    let region := rest.takeWhile (fun c => c != ')')
    if region.length < rest.length then
      match afterFirstSub "/product/".data region with
      | some tail =>
        if !tail.isEmpty then some (mrUrlBase ++ region, mrUrlOpen.length + region.length + 1)
        else none
      | none => none
    else none
  else none

/-- `re.finditer` driver: scan left to right, skipping over each match
(fuelled; every step consumes at least one character). Returns the
(match start index, captured value) pairs in order. -/
def finditerAux {α : Type} (f : List Char → Option (α × Nat)) :
    Nat → List Char → Nat → List (Nat × α)
  | 0, _, _ => []
  | _ + 1, [], _ => []
  | fuel + 1, c :: cs, i =>
    match f (c :: cs) with
    | some (a, n) => (i, a) :: finditerAux f fuel (cs.drop (n - 1)) (i + n)
    | none => finditerAux f fuel cs (i + 1)

def finditer {α : Type} (f : List Char → Option (α × Nat)) (t : List Char) : List (Nat × α) :=
  finditerAux f t.length t 0

/-- Clean one split piece: strip, strip backslashes, strip; drop empties. -/
def mrCleanPiece (piece : List Char) : Option (List Char) :=
  let s := pyStrip (stripChar '\\' (pyStrip piece))
  if s.isEmpty then none else some s

def mrCleanLines (raw : List Char) : List (List Char) :=
  (splitSeps raw).filterMap mrCleanPiece

/-- `^\d+% off$`. -/
def isPercentOff (s : List Char) : Bool :=
  let d := s.takeWhile Char.isDigit
  !d.isEmpty && (s.drop d.length == "% off".data)

/-- Split cleaned MR PORTER lines into prices and free-text lines,
skipping `NN% off` lines and the two sale banners. -/
def mrClassify : List (List Char) → Except String (List Int × List (List Char))
  | [] => .ok ([], [])
  | l :: ls =>
    match dollarBody l with
    | some ds =>
      if ds.isEmpty then .error "ValueError"
      else (mrClassify ls).map (fun pt => ((digitsVal ds : Int) :: pt.1, pt.2))
    | none =>
      if isPercentOff l then mrClassify ls
      else if l = "FINAL SALE".data ∨ l = "FURTHER REDUCED".data then mrClassify ls
      else (mrClassify ls).map (fun pt => (pt.1, l :: pt.2))

/-- Check of `(?:[^/]+/)+(\d+)$` against the text after one `/product/`:
nonempty slash-separated segments ending in a nonempty all-digit
segment, with at least one intermediate segment. -/
def mrPidCheck (s : List Char) : Option (List Char) :=
  let parts := splitOnChar '/' s
  match parts.getLast? with
  | none => none
  | some last =>
    if decide (2 ≤ parts.length) && parts.dropLast.all (fun p => !p.isEmpty) &&
        !last.isEmpty && last.all Char.isDigit then some last
    else none

/-- `re.search(r'/product/(?:[^/]+/)+(\d+)$', url)`: leftmost `/product/`
occurrence whose remainder passes `mrPidCheck`. -/
def mrPidFromUrl : List Char → Option (List Char)
  | [] => none
  | c :: cs =>
    if "/product/".data.isPrefixOf (c :: cs) then
      match mrPidCheck ((c :: cs).drop 9) with
      | some d => some d
      | none => mrPidFromUrl cs
    else mrPidFromUrl cs

/-- Per-span body of the `parse_mrporter_products` loop: extract the image
URL, strip image tags, split/clean/classify the lines, and build the
record when at least two prices and one text line are present (original
price first, sale price second). -/
def mrporterSpanRecord (url raw : List Char) : Except String (Option ProductRecord) :=
  let image0 := searchFirst (imgTagAt mrImgLit mrImgBase) raw
  match mrClassify (mrCleanLines (stripImageTags raw)) with
  | .error e => .error e
  | .ok (prices, texts) =>
    if prices.length < 2 ∨ texts.length < 1 then .ok none
    else
      let brand := texts.getD 0 []
      let name := if 1 < texts.length then texts.getD 1 [] else brand
      let image :=
        match image0 with
        | some i => some i
        | none => (mrPidFromUrl url).map (fun pid => mrImgBase ++ pid ++ "/in/w358_q60.jpg".data)
      .ok (some
        { brand := String.mk brand, name := String.mk name,
          sale_price := prices.getD 1 0, original_price := prices.getD 0 0,
          url := String.mk url, image_url := image.map String.mk })

def processMrMatches (t : List Char) : List (Nat × List Char) → Except String (List ProductRecord)
  | [] => .ok []
  | (endPos, url) :: ms =>
    match findLabelStart t endPos with
    | none => processMrMatches t ms
    | some start =>
      match mrporterSpanRecord url ((t.take endPos).drop (start + 1).toNat) with
      | .error e => .error e
      | .ok none => processMrMatches t ms
      | .ok (some p) => (processMrMatches t ms).map (fun ps => p :: ps)

/-- `parse_mrporter_products(text)`. -/
def parse_mrporter_products (text : String) : Except String (List ProductRecord) :=
  processMrMatches text.data (finditer mrUrlAt text.data)

/-! ### 2ndStreet: `parse_2ndstreet_products` -/

def stUrlOpen : List Char := "](https://en.2ndstreet.jp/goods/detail/".data

def stUrlBase : List Char := "https://en.2ndstreet.jp/goods/detail/".data

def stImgLit : List Char := "](https://cdn2.2ndstreet.jp/img/pc/goods/".data

def stImgBase : List Char := "https://cdn2.2ndstreet.jp/img/pc/goods/".data

/-- One-position matcher for
`\]\((https://en\.2ndstreet\.jp/goods/detail/[^\)]+)\)`. -/
def stUrlAt (s : List Char) : Option (List Char × Nat) :=
  if stUrlOpen.isPrefixOf s then
    let rest := s.drop stUrlOpen.length
    let region := rest.takeWhile (fun c => c != ')')
    if !region.isEmpty && region.length < rest.length then
      some (stUrlBase ++ region, stUrlOpen.length + region.length + 1)
    else none
  else none

/-- Clean one split piece: strip, strip backslashes, strip, drop a leading
`- ` list marker, and drop empty or bare `-` results. -/
def stCleanPiece (piece : List Char) : Option (List Char) :=
  let s0 := pyStrip (stripChar '\\' (pyStrip piece))
  let s := if "- ".data.isPrefixOf s0 then pyStrip (s0.drop 2) else s0
  if s.isEmpty || s == "-".data then none else some s

def stCleanLines (raw : List Char) : List (List Char) :=
  (splitSeps raw).filterMap stCleanPiece

/-- `^-?\s*(\d+)%\s*OFF$` with `re.IGNORECASE`: returns the percent. -/
def stDiscMatch (s : List Char) : Option Nat :=
  let s1 := match s with
    | '-' :: r => r
    | r => r
  let s2 := s1.dropWhile isPySpace
  let d := s2.takeWhile Char.isDigit
  if d.isEmpty then none
  else
    match s2.drop d.length with
    | '%' :: r3 => if pyUpper (r3.dropWhile isPySpace) = "OFF".data then some (digitsVal d) else none
    | _ => none

/-- `^[¥￥]([0-9,]+)$`: returns the group with commas removed. -/
def yenBody (s : List Char) : Option (List Char) :=
  match s with
  | '¥' :: rest => if isPriceBody rest then some (rest.filter (fun c => c != ',')) else none
  | '￥' :: rest => if isPriceBody rest then some (rest.filter (fun c => c != ',')) else none
  | _ => none

/-- `^Size\s`: the literal `Size` followed by one whitespace character. -/
def isSizeLine (s : List Char) : Bool :=
  "Size".data.isPrefixOf s &&
    (match s.drop 4 with
     | c :: _ => isPySpace c
     | [] => false)

/-- Stateful classification of cleaned 2ndStreet lines: the last discount
line and the last price line win; condition/size metadata is skipped;
the rest are free-text lines in order. -/
def stClassifyAux : List (List Char) → Nat → Option Nat → List (List Char) →
    Except String (Nat × Option Nat × List (List Char))
  | [], d, p, ts => .ok (d, p, ts.reverse)
  | l :: ls, d, p, ts =>
    match stDiscMatch l with
    | some n => stClassifyAux ls n p ts
    | none =>
      match yenBody l with
      | some ds =>
        if ds.isEmpty then .error "ValueError"
        else stClassifyAux ls d (some (digitsVal ds)) ts
      | none =>
        if "Item Condition:".data.isPrefixOf l then stClassifyAux ls d p ts
        else if isSizeLine l then stClassifyAux ls d p ts
        else stClassifyAux ls d p (l :: ts)

def stClassify (ls : List (List Char)) : Except String (Nat × Option Nat × List (List Char)) :=
  stClassifyAux ls 0 none []

/-- Per-span body of the `parse_2ndstreet_products` loop: extract and
full-size the image URL, strip image tags, split/clean/classify, and
build the record with the original price back-computed from the discount
(`round(price / (1 - pct/100))`); a 100% discount is Python's float
division by zero. -/
def stSpanRecord (url raw : List Char) : Except String (Option ProductRecord) :=
  let image :=
    (searchFirst (imgTagAt stImgLit stImgBase) raw).map (replaceSub "_tn.jpg".data ".jpg".data)
  match stClassify (stCleanLines (stripImageTags raw)) with
  | .error e => .error e
  | .ok (d, priceOpt, texts) =>
    match priceOpt with
    | none => .ok none
    | some price =>
      if texts.length < 1 then .ok none
      else
        let brand := texts.getD 0 []
        let name := if 1 < texts.length then texts.getD 1 [] else brand
        match
          (if 0 < d then
            if d = 100 then Except.error "ZeroDivisionError"
            else Except.ok (pyRound ((price : ℚ) / (1 - (d : ℚ) / 100)))
          else Except.ok (price : Int) : Except String Int) with
        | .error e => .error e
        | .ok orig =>
          .ok (some
            { brand := String.mk brand, name := String.mk name,
              sale_price := (price : Int), original_price := orig,
              discount_pct := some (d : Int), url := String.mk url,
              currency := some "JPY", retailer_type := some "secondhand",
              image_url := image.map String.mk })

def processStMatches (t : List Char) : List (Nat × List Char) → Except String (List ProductRecord)
  | [] => .ok []
  | (endPos, url) :: ms =>
    match findLabelStart t endPos with
    | none => processStMatches t ms
    | some start =>
      match stSpanRecord url ((t.take endPos).drop (start + 1).toNat) with
      | .error e => .error e
      | .ok none => processStMatches t ms
      | .ok (some p) => (processStMatches t ms).map (fun ps => p :: ps)

/-- `parse_2ndstreet_products(text)`. -/
def parse_2ndstreet_products (text : String) : Except String (List ProductRecord) :=
  processStMatches text.data (finditer stUrlAt text.data)

/-! ### Normalizer and pipeline stages (`parse_file` enrichment, `main`) -/

/-- The per-record enrichment loop of `parse_file`: set the retailer tag,
default the image URL (`setdefault('image_url', None)` — the `Option`
field already models an absent key), compute `discount_pct` from the
prices when the extractor did not set it (`round((1 - sale/original) *
100)`, guarded to `0` when `original_price` is not positive), default
currency and retailer type, and classify the category from the name. -/
def enrich (retailer : String) (p : ProductRecord) : ProductRecord :=
  { p with
    retailer := some retailer,
    discount_pct := some
      (match p.discount_pct with
       | some d => d
       | none =>
         if 0 < p.original_price then
           pyRound ((1 - (p.sale_price : ℚ) / (p.original_price : ℚ)) * 100)
         else 0),
    currency := some (p.currency.getD "USD"),
    retailer_type := some (p.retailer_type.getD "standard"),
    category := some (infer_category p.name) }

/-- The sort key `p['discount_pct']`; after enrichment the field is always
set (`enrich_sets_discount`), so the default is never consulted in the
pipeline. -/
def discKey (p : ProductRecord) : Int := p.discount_pct.getD 0

theorem enrich_sets_discount (r : String) (p : ProductRecord) :
    ((enrich r p).discount_pct).isSome := by
  simp [enrich]

/-- The filter of `main`:
`p.get('retailer_type') == 'secondhand' or p['discount_pct'] >= min_discount`. -/
def keepRecord (minDiscount : Int) (p : ProductRecord) : Bool :=
  p.retailer_type == some "secondhand" || decide (minDiscount ≤ discKey p)

def filterStage (minDiscount : Int) (ps : List ProductRecord) : List ProductRecord :=
  ps.filter (keepRecord minDiscount)

/-- `filtered.sort(key=lambda p: p['discount_pct'], reverse=True)`:
Python's sort is stable and `reverse=True` keeps ties in input order, so
the result is the unique stable descending sort, embedded as an
insertion sort with the relation "later discount key at most earlier". -/
def sortStage (ps : List ProductRecord) : List ProductRecord :=
  List.insertionSort (fun p q => discKey q ≤ discKey p) ps

/-- Python truthiness of the `image_url` field (`not p.get('image_url')`):
an absent key, `None`, and the empty string are all falsy. -/
def truthyStr : Option String → Bool
  | none => false
  | some s => !s.isEmpty

/-- The selection of `resolve_ssense_images`:
`p.get('retailer') == 'ssense' and not p.get('image_url')`. -/
def needsSsenseImage (p : ProductRecord) : Bool :=
  p.retailer == some "ssense" && !truthyStr p.image_url

/-- `p['url'].rstrip('/').split('/')[-1]`: the cache key of a record. -/
def pidOf (url : String) : String :=
  let cs := (url.data.reverse.dropWhile (fun c => c == '/')).reverse
  String.mk (cs.reverse.takeWhile (fun c => c != '/')).reverse

/-- `pid in cache` / `cache[pid]` over the JSON cache object, embedded as
an association list. -/
def lookupCache (cache : List (String × String)) (pid : String) : Option String :=
  (cache.find? (fun e => e.1 == pid)).map (fun e => e.2)

/-- The pure cache phase of `resolve_ssense_images`: every selected record
whose pid is cached gets its image URL from the cache; the others are
collected in `to_fetch` for the external (Firecrawl) lookup. Returns
(updated records, to_fetch). -/
def resolveImagesCacheStep (cache : List (String × String)) (ps : List ProductRecord) :
    List ProductRecord × List ProductRecord :=
  (ps.map (fun p =>
      if needsSsenseImage p then
        match lookupCache cache (pidOf p.url) with
        | some img => { p with image_url := some img }
        | none => p
      else p),
   ps.filter (fun p => needsSsenseImage p && (lookupCache cache (pidOf p.url)).isNone))

/-! ### Claims -/

/-- Claim C6: normalization leaves an extractor-set `discount_pct`
unchanged; otherwise it sets the field to `round((1 - sale/original) *
100)` when `original_price > 0` and to `0` when it is not positive (the
division is guarded and the computation is total). -/
theorem claim_c6 (r : String) (p : ProductRecord) :
    (∀ d0, p.discount_pct = some d0 → (enrich r p).discount_pct = some d0) ∧
    (p.discount_pct = none →
      (enrich r p).discount_pct = some
        (if 0 < p.original_price then
          pyRound ((1 - (p.sale_price : ℚ) / (p.original_price : ℚ)) * 100)
        else 0)) := by
  constructor
  · intro d0 h; simp [enrich, h]
  · intro h; simp [enrich, h]

/-- A record whose extractor already set `discount_pct` (concrete input
for the witness). -/
def presetRec : ProductRecord :=
  { brand := "B", name := "N", sale_price := 1, original_price := 2,
    url := "u", discount_pct := some 50 }

theorem claim_c6_w : (enrich "x" presetRec).discount_pct = some 50 :=
  (claim_c6 "x" presetRec).1 50 rfl

/-- Claim C10: the enrichment step of `parse_file` is idempotent — run a
second time with the same retailer tag it changes no field. -/
theorem claim_c10 (r : String) (p : ProductRecord) :
    enrich r (enrich r p) = enrich r p := by
  cases p with
  | mk brand name sp op url img d cur rt ret cat => cases d <;> simp [enrich]

/-- Claim C8: a record survives the filter of `main` exactly when its
retailer type is `secondhand` or its discount percentage meets the
run's minimum-discount parameter. -/
theorem claim_c8 (minDiscount : Int) (ps : List ProductRecord) (p : ProductRecord) (d : Int)
    (hd : p.discount_pct = some d) :
    p ∈ filterStage minDiscount ps ↔
      p ∈ ps ∧ (p.retailer_type = some "secondhand" ∨ minDiscount ≤ d) := by
  simp [filterStage, keepRecord, List.mem_filter, discKey, hd]

/-- A secondhand record with zero discount (concrete input for the
witness: it is retained at a 50% threshold). -/
def shRec : ProductRecord :=
  { brand := "B", name := "N", sale_price := 5, original_price := 5,
    url := "u", discount_pct := some 0, retailer_type := some "secondhand" }

theorem claim_c8_w : shRec ∈ filterStage 50 [shRec] :=
  (claim_c8 50 [shRec] shRec 0 rfl).mpr ⟨List.mem_singleton.mpr rfl, Or.inl rfl⟩

/-- A character that fails the predicate stays in the `dropWhile`. -/
theorem mem_dropWhile_of_not {c : Char} {p : Char → Bool} {l : List Char}
    (hc : c ∈ l) (hp : p c = false) : c ∈ l.dropWhile p := by
  induction l with
  | nil => cases hc
  | cons x xs ih =>
    by_cases hx : p x = true
    · rw [List.dropWhile_cons_of_pos hx]
      rcases List.mem_cons.mp hc with h | h
      · subst h; rw [hx] at hp; cases hp
      · exact ih h
    · rw [List.dropWhile_cons_of_neg hx]
      exact hc

/-- A non-whitespace character survives `pyStrip`, so the strip of a
string containing one is nonempty. -/
theorem pyStrip_not_empty {c : Char} {s : List Char}
    (hc : c ∈ s) (hp : isPySpace c = false) : (pyStrip s).isEmpty = false := by
  have h1 := mem_dropWhile_of_not hc hp
  have h2 := mem_dropWhile_of_not (List.mem_reverse.mpr h1) hp
  have h4 : c ∈ pyStrip s := List.mem_reverse.mpr h2
  cases h : pyStrip s with
  | nil => rw [h] at h4; cases h4
  | cons a l => rfl

/-- A block with an SSENSE product URL contains a `]`. -/
theorem mem_of_ssenseUrlSearch {s url : List Char}
    (h : ssenseUrlSearch s = some url) : ']' ∈ s := by
  induction s with
  | nil =>
    rw [show ssenseUrlSearch ([] : List Char) = none from rfl] at h
    cases h
  | cons c cs ih =>
    rw [ssenseUrlSearch, searchFirst] at h
    cases hm : ssenseUrlAt (c :: cs) with
    | some u =>
      by_cases hpre : ssenseUrlOpen.isPrefixOf (c :: cs)
      · rcases List.isPrefixOf_iff_prefix.mp hpre with ⟨t, ht⟩
        have h2 : ']' :: ("(https://www.ssense.com/".data ++ t) = c :: cs := ht
        have h3 : ']' = c := (List.cons.injEq _ _ _ _).mp h2 |>.1
        exact h3 ▸ List.mem_cons_self c cs
      · rw [ssenseUrlAt, if_neg (by simpa using hpre)] at hm
        cases hm
    | none =>
      rw [hm] at h
      exact List.mem_cons_of_mem c (ih (by rw [ssenseUrlSearch]; exact h))

/-- Claim C1: in the simplest (SSENSE) format, a candidate block that
contains an ssense.com product URL and whose cleaned, filtered lines
classify into at least two price lines and at least one free-text line
yields exactly one record, whose sale price is the first price value
and whose original price is the second. -/
theorem claim_c1 (block url : List Char) (prices : List Int) (texts : List (List Char))
    (hu : ssenseUrlSearch block = some url)
    (hc : ssenseClassify (ssenseFilterLines (ssenseCleanLines block)) = .ok (prices, texts))
    (hp : 2 ≤ prices.length) (ht : 1 ≤ texts.length) :
    ∃ r, parseSsenseBlock block = .ok [r] ∧
      r.sale_price = prices.getD 0 0 ∧ r.original_price = prices.getD 1 0 := by
  have hne : (pyStrip block).isEmpty = false :=
    pyStrip_not_empty (mem_of_ssenseUrlSearch hu) (by decide)
  simp only [parseSsenseBlock, hne, Bool.false_eq_true, if_false, hu, hc]
  rw [if_pos ⟨hp, ht⟩]
  exact ⟨_, rfl, rfl, rfl⟩

/-- Concrete SSENSE block for the claim C1 witness. -/
def c1Block : List Char := "[![a](b)\nBRAND\nName\n$5\n$9](https://www.ssense.com/x)".data

theorem claim_c1_w :
    ∃ r, parseSsenseBlock c1Block = .ok [r] ∧
      r.sale_price = [(5 : Int), 9].getD 0 0 ∧ r.original_price = [(5 : Int), 9].getD 1 0 :=
  claim_c1 c1Block "https://www.ssense.com/x".data [5, 9] ["BRAND".data, "Name".data]
    (by rfl) (by rfl) (by decide) (by decide)

/-- Claim C2: in the marketplace (MR PORTER) format, a product span whose
cleaned lines classify into at least two price lines and at least one
free-text line yields a record whose original price is the first price
value and whose sale price is the second — the reverse of the simplest
format's order. -/
theorem claim_c2 (url raw : List Char) (prices : List Int) (texts : List (List Char))
    (hc : mrClassify (mrCleanLines (stripImageTags raw)) = .ok (prices, texts))
    (hp : 2 ≤ prices.length) (ht : 1 ≤ texts.length) :
    ∃ r, mrporterSpanRecord url raw = .ok (some r) ∧
      r.original_price = prices.getD 0 0 ∧ r.sale_price = prices.getD 1 0 := by
  simp only [mrporterSpanRecord, hc]
  rw [if_neg (by omega : ¬(prices.length < 2 ∨ texts.length < 1))]
  exact ⟨_, rfl, rfl, rfl⟩

/-- Concrete MR PORTER span content for the claim C2 witness. -/
def c2Raw : List Char := "BRAND\\\nNice Top\\\n$200\\\n50% off\\\n$100".data

theorem claim_c2_w :
    ∃ r, mrporterSpanRecord "https://www.mrporter.com/en/product/x/5".data c2Raw =
        .ok (some r) ∧
      r.original_price = [(200 : Int), 100].getD 0 0 ∧
      r.sale_price = [(200 : Int), 100].getD 1 0 :=
  claim_c2 "https://www.mrporter.com/en/product/x/5".data c2Raw [200, 100]
    ["BRAND".data, "Nice Top".data] (by rfl) (by decide) (by decide)

/-- Claim C3: in the secondhand (2ndStreet) format, a span that yields a
record has `original_price = sale_price` when no discount line was seen
(the classifier state stays `0`), and, for a discount of `pct` with
`0 < pct < 100`, `original_price = round(price / (1 - pct/100))` where
`price` is the observed price. -/
theorem claim_c3 (url raw : List Char) (d price : Nat) (texts : List (List Char))
    (hc : stClassify (stCleanLines (stripImageTags raw)) = .ok (d, some price, texts))
    (ht : 1 ≤ texts.length) (hd : d < 100) :
    ∃ r, stSpanRecord url raw = .ok (some r) ∧
      r.sale_price = (price : Int) ∧ r.discount_pct = some (d : Int) ∧
      r.original_price =
        (if 0 < d then pyRound ((price : ℚ) / (1 - (d : ℚ) / 100)) else (price : Int)) := by
  simp only [stSpanRecord, hc]
  rw [if_neg (by omega : ¬ texts.length < 1)]
  by_cases h0 : 0 < d
  · rw [if_pos h0, if_neg (by omega : ¬ d = 100), if_pos h0]
    exact ⟨_, rfl, rfl, rfl, rfl⟩
  · rw [if_neg h0, if_neg h0]
    exact ⟨_, rfl, rfl, rfl, rfl⟩

/-- Concrete 2ndStreet span content for the claim C3 witness. -/
def c3Raw : List Char := "30% OFF\\\nGUCCI\\\n¥1,000".data

theorem claim_c3_w :
    ∃ r, stSpanRecord "https://en.2ndstreet.jp/goods/detail/g1".data c3Raw = .ok (some r) ∧
      r.sale_price = ((1000 : Nat) : Int) ∧ r.discount_pct = some ((30 : Nat) : Int) ∧
      r.original_price =
        (if 0 < (30 : Nat) then pyRound (((1000 : Nat) : ℚ) / (1 - ((30 : Nat) : ℚ) / 100))
         else ((1000 : Nat) : Int)) :=
  claim_c3 "https://en.2ndstreet.jp/goods/detail/g1".data c3Raw 30 1000 ["GUCCI".data]
    (by rfl) (by decide) (by decide)

/-- With depth already `0` the backward scan is finished. -/
theorem scanBracketAux_done (t : List Char) (fuel : Nat) (pos : Int) :
    scanBracketAux t fuel pos 0 = (pos, 0) := by
  cases fuel with
  | zero => rfl
  | succ n => rw [scanBracketAux, if_neg (by omega)]

/-- Invariant of the backward scan: whenever it balances the counter, the
position it reports (plus one) carries the opening bracket, and the
reported position never went below `-1`. -/
theorem scanBracketAux_open (t : List Char) :
    ∀ (fuel : Nat) (pos : Int) (depth : Nat), 0 < depth → -1 ≤ pos →
      (scanBracketAux t fuel pos depth).2 = 0 →
      -1 ≤ (scanBracketAux t fuel pos depth).1 ∧
        t.getD ((scanBracketAux t fuel pos depth).1 + 1).toNat ' ' = '[' := by
  intro fuel
  induction fuel with
  | zero =>
    intro pos depth hd _ h0
    rw [scanBracketAux] at h0
    omega
  | succ n ih =>
    intro pos depth hd hpos h0
    by_cases hc : 0 ≤ pos ∧ 0 < depth
    · simp only [scanBracketAux] at h0 ⊢
      rw [if_pos hc] at h0 ⊢
      by_cases h1 : t.getD pos.toNat ' ' = ']'
      · rw [if_pos h1] at h0 ⊢
        exact ih (pos - 1) (depth + 1) (by omega) (by omega) h0
      · by_cases h2 : t.getD pos.toNat ' ' = '['
        · rw [if_neg h1, if_pos h2] at h0 ⊢
          by_cases h3 : depth = 1
          · subst h3
            rw [show (1 : Nat) - 1 = 0 from rfl, scanBracketAux_done] at h0 ⊢
            refine ⟨by omega, ?_⟩
            have h6 : (pos - 1 + 1).toNat = pos.toNat := by omega
            rw [h6]
            exact h2
          · exact ih (pos - 1) (depth - 1) (by omega) (by omega) h0
        · rw [if_neg h1, if_neg h2] at h0 ⊢
          exact ih (pos - 1) depth hd (by omega) h0
    · rw [scanBracketAux, if_neg hc] at h0
      omega

/-- Claim C4: the backward bracket scan (counter up on `]`, down on `[`)
returns the index of an opening bracket whenever it balances; on the
nested input `[![img](u)\ text](outer)` it resolves the outer label
(index 0), not the inner image span; and an input whose scan hits the
start of text before balancing makes the parser skip the candidate
without producing a record. -/
theorem claim_c4 :
    (∀ (t : List Char) (endPos : Nat) (j : Int), findLabelStart t endPos = some j →
        0 ≤ j ∧ t.getD j.toNat ' ' = '[') ∧
    findLabelStart "[![img](u)\\ text](outer)".data 16 = some 0 ∧
    parse_mrporter_products "](https://www.mrporter.com/x/product/a/1)" = .ok [] := by
  refine ⟨?_, by rfl, by rfl⟩
  intro t endPos j h
  rw [findLabelStart] at h
  unfold scanBracket at h
  by_cases h2 : (scanBracketAux t (((endPos : Int) - 1) + 1).toNat ((endPos : Int) - 1) 1).2 = 0
  · rw [if_pos h2] at h
    have h5 := scanBracketAux_open t (((endPos : Int) - 1) + 1).toNat ((endPos : Int) - 1) 1
      (by omega) (by omega) h2
    have hj := Option.some.inj h
    constructor
    · omega
    · rw [← hj]
      exact h5.2
  · rw [if_neg h2] at h
    cases h

theorem claim_c4_w :
    (0 : Int) ≤ 0 ∧ ("[![img](u)\\ text](outer)".data).getD (0 : Int).toNat ' ' = '[' :=
  claim_c4.1 "[![img](u)\\ text](outer)".data 16 0 (by rfl)

/-- Concrete 2ndStreet page with a `100% OFF` product span. -/
def stCrashInput : String :=
  "[BrandX\\\n¥1,000\\\n100% OFF](https://en.2ndstreet.jp/goods/detail/1)"

/-- Claim C5 fails on the code: a well-bracketed secondhand span carrying
a `100% OFF` discount line makes `parse_2ndstreet_products` evaluate
`round(price / (1 - 100/100))`, Python float division by zero, so the
extractor raises instead of dropping the span or producing a degenerate
record. -/
theorem claim_c5 : parse_2ndstreet_products stCrashInput = .error "ZeroDivisionError" := by
  rfl

/-- A normalized marketplace-format (MR PORTER) record with no image URL. -/
def mrRec : ProductRecord :=
  { brand := "B", name := "N", sale_price := 50, original_price := 100,
    url := "https://www.mrporter.com/us/en/product/x/123", image_url := none,
    discount_pct := some 50, currency := some "USD", retailer_type := some "standard",
    retailer := some "mrporter", category := some "other" }

/-- Counterexample to claim C7: a marketplace-format record that is
missing an image URL is NOT subjected to the cache lookup — the
selection of `resolve_ssense_images` requires the retailer tag
`ssense`. Even with a cache holding this record's key, the record
passes through unchanged and is not queued for the external lookup. -/
theorem claim_c7_cex :
    needsSsenseImage mrRec = false ∧
    (resolveImagesCacheStep [(pidOf mrRec.url, "https://i")] [mrRec]).1 = [mrRec] ∧
    (resolveImagesCacheStep [(pidOf mrRec.url, "https://i")] [mrRec]).2 = [] := by
  refine ⟨rfl, rfl, rfl⟩

/-- Claim C7 (amended): in the image-resolution stage, exactly the records
with retailer tag `ssense` (the simplest/SSENSE format) that are
missing an image URL are subjected to the cache lookup, and of those
exactly the cache misses are queued for the best-effort external
lookup; records of the other formats pass through unchanged. -/
theorem claim_c7 (cache : List (String × String)) (ps : List ProductRecord)
    (p : ProductRecord) :
    (p ∈ (resolveImagesCacheStep cache ps).2 ↔
      p ∈ ps ∧ p.retailer = some "ssense" ∧ truthyStr p.image_url = false ∧
        lookupCache cache (pidOf p.url) = none) ∧
    (p ∈ ps → needsSsenseImage p = false → p ∈ (resolveImagesCacheStep cache ps).1) := by
  constructor
  · simp [resolveImagesCacheStep, List.mem_filter, needsSsenseImage,
      Option.isNone_iff_eq_none, Bool.and_eq_true, beq_iff_eq, Bool.not_eq_true',
      and_assoc]
  · intro hp hn
    have hmem := List.mem_map_of_mem
      (f := fun q => if needsSsenseImage q then
        match lookupCache cache (pidOf q.url) with
        | some img => { q with image_url := some img }
        | none => q
      else q) hp
    simp only at hmem
    rw [if_neg (by simp [hn])] at hmem
    exact hmem

/-- An SSENSE record with no image URL (concrete input for the witness:
with an empty cache it is queued for the external lookup). -/
def ssRec : ProductRecord :=
  { brand := "B", name := "N", sale_price := 1, original_price := 2,
    url := "https://www.ssense.com/en/product/a/b/9", retailer := some "ssense" }

theorem claim_c7_w : ssRec ∈ (resolveImagesCacheStep [] [ssRec]).2 :=
  (claim_c7 [] [ssRec] ssRec).1.mpr ⟨List.mem_singleton.mpr rfl, rfl, rfl, rfl⟩

instance relTotal : IsTotal ProductRecord (fun p q => discKey q ≤ discKey p) :=
  ⟨fun a b => le_total (discKey b) (discKey a)⟩

instance relTrans : IsTrans ProductRecord (fun p q => discKey q ≤ discKey p) :=
  ⟨fun _ _ _ h1 h2 => le_trans h2 h1⟩

/-- Inserting into a list only touches the filtered-by-key slice when the
inserted element carries that key, in which case it lands at its front:
the elements that `orderedInsert` skips all have a strictly larger key. -/
theorem filter_orderedInsert (d : Int) (p : ProductRecord) (l : List ProductRecord) :
    (List.orderedInsert (fun a b => discKey b ≤ discKey a) p l).filter
        (fun q => discKey q == d) =
      if discKey p = d then
        p :: l.filter (fun q => discKey q == d)
      else l.filter (fun q => discKey q == d) := by
  induction l with
  | nil => by_cases h : discKey p = d <;> simp [List.orderedInsert, h]
  | cons q qs ih =>
    by_cases hq : discKey q ≤ discKey p
    · rw [List.orderedInsert, if_pos hq]
      by_cases h : discKey p = d <;> simp [List.filter_cons, h]
    · have hlt : discKey p < discKey q := lt_of_not_le hq
      rw [List.orderedInsert, if_neg hq, List.filter_cons, List.filter_cons, ih]
      by_cases h : discKey p = d
      · have hqne : (discKey q == d) = false := beq_eq_false_iff_ne.mpr (by omega)
        simp [hqne, h]
      · simp [h]

/-- Claim C9: the sort stage orders the records by discount percentage
descending, and the records sharing any one discount value keep their
relative input order (stability) — together these characterize Python's
stable `sort(key=..., reverse=True)`. -/
theorem claim_c9 (ps : List ProductRecord) :
    (sortStage ps).Pairwise (fun p q => discKey q ≤ discKey p) ∧
    ∀ d : Int, (sortStage ps).filter (fun p => discKey p == d) =
      ps.filter (fun p => discKey p == d) := by
  constructor
  · exact List.sorted_insertionSort (fun p q => discKey q ≤ discKey p) ps
  · intro d
    simp only [sortStage]
    induction ps with
    | nil => rfl
    | cons a l ih =>
      rw [List.insertionSort, filter_orderedInsert, List.filter_cons]
      by_cases h : discKey a = d
      · rw [if_pos h, if_pos (beq_iff_eq.mpr h), ih]
      · rw [if_neg h, if_neg (by simp [h]), ih]
